import Mathlib

/-!
Verification development for the Expiration Tracker backend
(src/backend/server.js), focused on the passwordless magic-link
authentication subsystem: token store, issuer, verifier, session
issuer/validator and expiry sweeper.

Modelling conventions:
* The Postgres table `magic_tokens (token_hash PRIMARY KEY, email,
  expires_at)` is embedded as an association list keyed by the token hash.
* Timestamps are abstract `Nat` ticks (milliseconds in the source).
* The SHA-256 digest (`crypto.createHash("sha256")`), the HMAC used by
  `jsonwebtoken`, and `encodeURIComponent` are external library functions;
  they appear as abstract function parameters in `AuthConfig`.
* The SQL `NOW()` clock used by the sweep and the JS `Date.now()` clock
  used by the expiry comparison are distinct reads, so the verifier takes
  two time parameters `tSweep` and `tNow`.
* Fallible I/O (mail dispatch) is passed in as an explicit outcome
  (`Option String`: `none` = delivered, `some msg` = the provider error
  message), and the sequence of dispatch attempts is returned explicitly.
-/

set_option autoImplicit false

namespace ExpTracker

/-- A row of the `magic_tokens` table minus its primary key:
`email` and `expires_at` (ms since epoch). -/
structure TokenRecord where
  email : String
  expiresAt : Nat
deriving Repr, DecidableEq

/-- The `magic_tokens` table, keyed by `token_hash`. -/
abbrev Store := List (String × TokenRecord)

/-- Lookup: `SELECT email, expires_at FROM magic_tokens WHERE token_hash = $1 LIMIT 1`. -/
def lookupToken (s : Store) (hash : String) : Option TokenRecord :=
  match s.find? (fun p => p.1 == hash) with
  | some p => some p.2
  | none => none

/-- Deletion by key: `DELETE FROM magic_tokens WHERE token_hash = $1`. -/
def deleteToken (s : Store) (hash : String) : Store :=
  s.filter (fun p => !(p.1 == hash))

/-- Sweep, `deleteExpiredMagicTokens` (server.js:70-76):
`DELETE FROM magic_tokens WHERE expires_at <= NOW()`.
Keeps exactly the rows with `expires_at > now`. -/
def deleteExpiredMagicTokens (now : Nat) (s : Store) : Store :=
  s.filter (fun p => decide (now < p.2.expiresAt))

/-- Upsert: `INSERT ... ON CONFLICT (token_hash) DO UPDATE SET email = EXCLUDED.email,
expires_at = EXCLUDED.expires_at` (server.js:341-344). -/
def upsertToken (s : Store) (hash : String) (rec : TokenRecord) : Store :=
  if s.any (fun p => p.1 == hash) then
    s.map (fun p => if p.1 == hash then (hash, rec) else p)
  else
    s ++ [(hash, rec)]

/-- A character of the local part of the allowed address pattern,
the regex class `[a-zA-Z0-9._%+-]`. -/
def isEmailLocalChar (c : Char) : Bool :=
  c.isAlphanum || c == '.' || c == '_' || c == '%' || c == '+' || c == '-'

/-- Whitespace removal at both ends, the JS `String.prototype.trim`,
expressed on the character list so it evaluates by kernel reduction. -/
def jsTrim (l : List Char) : List Char :=
  ((l.dropWhile Char.isWhitespace).reverse.dropWhile Char.isWhitespace).reverse

/-- Lower-casing plus trimming, the `.trim().toLowerCase()` normalization
the issuer applies to the submitted address (server.js:331). -/
def normalizeEmail (email : String) : String :=
  String.mk ((jsTrim email.data).map Char.toLower)

/-- Identity validation, `isPoolEngEmail` (server.js:62-64): trims the input and tests it
against the case-insensitive pattern `[a-zA-Z0-9._%+-]+@pooleng\.com`
anchored at both ends.  Case-insensitivity is embedded by lowering the
trimmed characters first; the pattern then demands a non-empty local part
drawn from the class followed by the literal domain. -/
def isPoolEngEmail (email : String) : Bool :=
  let t := (jsTrim email.data).map Char.toLower
  let dom := "@pooleng.com".data
  decide (dom.length < t.length)
    && (t.drop (t.length - dom.length) == dom)
    && (t.take (t.length - dom.length)).all isEmailLocalChar

/-- The claims of the session JWT minted by `createSessionToken`:
`{ email }` plus the `iat`/`exp` pair that `jsonwebtoken` adds for
`expiresIn`. -/
structure SessionPayload where
  email : String
  iat : Nat
  exp : Nat
deriving Repr, DecidableEq

/-- A signed session credential: payload plus HMAC signature. -/
structure Jwt where
  payload : SessionPayload
  sig : String
deriving Repr, DecidableEq

/-- Environment and external library functions of the auth subsystem. -/
structure AuthConfig where
  /-- Digest, `hashToken` (server.js:66-68): hex SHA-256, abstract here. -/
  hashToken : String → String
  /-- The HMAC-SHA256 signature `jsonwebtoken` computes over a payload
  with a given secret, abstract here. -/
  mac : String → SessionPayload → String
  jwtSecret : String
  sessionDays : Nat
  magicLinkMinutes : Nat
  frontendUrl : String
  magicLinkBaseUrl : String
  encodeURIComponent : String → String
  /-- Whether `process.env.NODE_ENV === "production"`. -/
  prodEnv : Bool

/-- Signing, `jwt.sign(payload, secret)`: attach the HMAC over the payload. -/
def jwtSign (cfg : AuthConfig) (p : SessionPayload) : Jwt :=
  ⟨p, cfg.mac cfg.jwtSecret p⟩

/-- Session issuance, `createSessionToken` (server.js:88-92): sign the email claim with
`expiresIn: SESSION_DAYS days`, so `exp = iat + sessionDays * 86400`. -/
def createSessionToken (cfg : AuthConfig) (email : String) (nowSec : Nat) : Jwt :=
  jwtSign cfg ⟨email, nowSec, nowSec + cfg.sessionDays * 24 * 60 * 60⟩

/-- Verification, `jwt.verify(token, secret)`: succeeds exactly when the signature
matches the HMAC over the payload and the credential is not yet expired
(`jsonwebtoken` rejects once `now >= exp`). -/
def jwtVerify (cfg : AuthConfig) (nowSec : Nat) (t : Jwt) : Option SessionPayload :=
  if t.sig = cfg.mac cfg.jwtSecret t.payload ∧ nowSec < t.payload.exp then
    some t.payload
  else
    none

/-- Outcome of the `requireAuth` middleware. -/
inductive AuthResult where
  | unauthenticated (status : Nat) (errMsg : String)
  | authenticated (user : SessionPayload)
deriving Repr, DecidableEq

/-- Session middleware, `requireAuth` (server.js:94-106): missing cookie yields 401
"Authentication required"; a cookie that fails `jwt.verify` yields 401
"Invalid or expired session"; otherwise the decoded payload becomes
`req.user`.  An absent or empty cookie is embedded as `none`. -/
def requireAuth (cfg : AuthConfig) (nowSec : Nat) (cookie : Option Jwt) : AuthResult :=
  match cookie with
  | none => .unauthenticated 401 "Authentication required"
  | some t =>
    match jwtVerify cfg nowSec t with
    | some p => .authenticated p
    | none => .unauthenticated 401 "Invalid or expired session"

/-- Observable HTTP responses of the auth endpoints. -/
inductive HttpResponse where
  | json (status : Nat) (body : String)
  | redirect (url : String)
  | cookieRedirect (cookie : Jwt) (url : String)
deriving Repr, DecidableEq

/-- One outbound mail-dispatch attempt. -/
structure MailAttempt where
  toEmail : String
  link : String
deriving Repr, DecidableEq

/-- Result of `POST /auth/request-magic-link`: the response, the store
after the request, and the dispatch attempts made. -/
structure IssueOutcome where
  response : HttpResponse
  store : Store
  mailAttempts : List MailAttempt
deriving Repr, DecidableEq

/-- Issuer endpoint, `POST /auth/request-magic-link` (server.js:330-366).
`emailRaw` is `String(req.body?.email || "")`; `rawToken` is the hex of
the 32 random bytes; `sendErr` is the outcome of `sendMagicLinkEmail`
(`none` = delivered). -/
def requestMagicLink (cfg : AuthConfig) (emailRaw : String) (rawToken : String)
    (sendErr : Option String) (now : Nat) (s : Store) : IssueOutcome :=
  let email := normalizeEmail emailRaw
  if isPoolEngEmail email then
    let s1 := deleteExpiredMagicTokens now s
    let tokenHash := cfg.hashToken rawToken
    let expiresAt := now + cfg.magicLinkMinutes * 60 * 1000
    let s2 := upsertToken s1 tokenHash ⟨email, expiresAt⟩
    let link := cfg.magicLinkBaseUrl ++ "/auth/verify-magic?token="
      ++ cfg.encodeURIComponent rawToken
    match sendErr with
    | none =>
      ⟨.json 200 "If the email is valid, a magic login link has been sent.",
       s2, [⟨email, link⟩]⟩
    | some msg =>
      ⟨.json 500 (if cfg.prodEnv then "Failed to send magic link email"
                  else "Failed to send magic link email: " ++ msg),
       deleteToken s2 tokenHash, [⟨email, link⟩]⟩
  else
    ⟨.json 400 "Only @pooleng.com emails are allowed", s, []⟩

/-- Result of `GET /auth/verify-magic`: the response and the store after
the request. -/
structure VerifyOutcome where
  response : HttpResponse
  store : Store
deriving Repr, DecidableEq

/-- Verifier endpoint, `GET /auth/verify-magic` (server.js:368-398).  `tSweep` is the SQL
`NOW()` read by the sweep, `tNow` the later `Date.now()` of the expiry
comparison (also used as the session `iat`).  Note the success branch
issues the session cookie without deleting the token row. -/
def verifyMagic (cfg : AuthConfig) (rawToken : String) (tSweep tNow : Nat)
    (s : Store) : VerifyOutcome :=
  if rawToken = "" then
    ⟨.redirect (cfg.frontendUrl ++ "/login?error=missing_token"), s⟩
  else
    let s1 := deleteExpiredMagicTokens tSweep s
    let tokenHash := cfg.hashToken rawToken
    match lookupToken s1 tokenHash with
    | none =>
      ⟨.redirect (cfg.frontendUrl ++ "/login?error=expired_or_invalid"), s1⟩
    | some rec =>
      if rec.expiresAt ≤ tNow then
        ⟨.redirect (cfg.frontendUrl ++ "/login?error=expired_or_invalid"),
         deleteToken s1 tokenHash⟩
      else
        ⟨.cookieRedirect (createSessionToken cfg rec.email tNow)
           (cfg.frontendUrl ++ "/dashboard"), s1⟩

/-- Whether any row of the store carries a given string as its key or
as its stored identity. -/
def storeMentions (s : Store) (x : String) : Bool :=
  s.any (fun p => p.1 == x || p.2.email == x)

/-- Concrete stand-in for the SHA-256 hex digest, used only to
instantiate theorems at concrete inputs. -/
def sampleHash (s : String) : String := String.append "sha256:" s

/-- Concrete stand-in for the jsonwebtoken HMAC, used only to
instantiate theorems at concrete inputs. -/
def sampleMac (key : String) (p : SessionPayload) : String :=
  String.intercalate "|" [key, p.email, toString p.iat, toString p.exp]

/-- Concrete configuration used to instantiate theorems. -/
def sampleCfg : AuthConfig :=
  ⟨sampleHash, sampleMac, "jwt-secret", 60, 10,
   "https://app.example", "https://api.example", fun s => s, false⟩

/-- A store holding one fresh token for alice, expiring at tick 100. -/
def sampleStore : Store :=
  [(sampleHash "secret-raw", ⟨"alice@pooleng.com", 100⟩)]

/-! ### Store lemmas -/

theorem lookupToken_eq_none_iff (s : Store) (hash : String) :
    lookupToken s hash = none ↔ ∀ p ∈ s, p.1 ≠ hash := by
  unfold lookupToken
  rcases hf : s.find? (fun p => p.1 == hash) with _ | q
  · rw [hf]
    constructor
    · intro _ p hp
      have := List.find?_eq_none.mp hf p hp
      simpa using this
    · intro _
      rfl
  · rw [hf]
    have hq := List.find?_some hf
    have hmem := List.mem_of_find?_eq_some hf
    simp only [beq_iff_eq] at hq
    constructor
    · intro h
      exact Option.noConfusion h
    · intro h
      exact absurd hq (h q hmem)

theorem lookupToken_some_mem (s : Store) (hash : String) (rec : TokenRecord)
    (h : lookupToken s hash = some rec) : (hash, rec) ∈ s := by
  unfold lookupToken at h
  rcases hf : s.find? (fun p => p.1 == hash) with _ | q
  · rw [hf] at h
    exact absurd h (by simp)
  · rw [hf] at h
    have hq := List.find?_some hf
    have hmem := List.mem_of_find?_eq_some hf
    simp only [beq_iff_eq] at hq
    simp only [Option.some.injEq] at h
    have : q = (hash, rec) := by
      cases q
      simp_all
    rwa [this] at hmem

theorem lookupToken_filter_none (s : Store) (hash : String) (f : String × TokenRecord → Bool)
    (h : lookupToken s hash = none) : lookupToken (s.filter f) hash = none := by
  rw [lookupToken_eq_none_iff] at h ⊢
  intro p hp
  exact h p (List.mem_of_mem_filter hp)

theorem lookupToken_deleteToken_self (s : Store) (hash : String) :
    lookupToken (deleteToken s hash) hash = none := by
  rw [lookupToken_eq_none_iff]
  intro p hp
  have := List.of_mem_filter hp
  simpa using this

theorem mem_deleteExpired (now : Nat) (s : Store) (p : String × TokenRecord) :
    p ∈ deleteExpiredMagicTokens now s ↔ p ∈ s ∧ now < p.2.expiresAt := by
  unfold deleteExpiredMagicTokens
  simp [List.mem_filter]

theorem mem_upsert (s : Store) (hash : String) (rec : TokenRecord)
    (p : String × TokenRecord) (h : p ∈ upsertToken s hash rec) :
    p ∈ s ∨ p = (hash, rec) := by
  unfold upsertToken at h
  by_cases hc : s.any (fun q => q.1 == hash)
  · rw [if_pos hc] at h
    rcases List.mem_map.mp h with ⟨q, hq, hfq⟩
    by_cases hqh : q.1 == hash
    · right
      rw [if_pos hqh] at hfq
      exact hfq.symm
    · left
      rw [if_neg hqh] at hfq
      rwa [hfq] at hq
  · rw [if_neg hc] at h
    rcases List.mem_append.mp h with hl | hr
    · exact Or.inl hl
    · right
      simpa using hr

theorem find?_map_replace (s : Store) (hash : String) (rec : TokenRecord)
    (hs : s.any (fun p => p.1 == hash) = true) :
    (s.map (fun p => if p.1 == hash then (hash, rec) else p)).find?
        (fun p => p.1 == hash) = some (hash, rec) := by
  induction s with
  | nil => simp at hs
  | cons q s ih =>
    by_cases hq : (q.1 == hash) = true
    · rw [List.map_cons, if_pos hq]
      simp only [List.find?_cons, beq_self_eq_true]
    · have hs2 : s.any (fun p => p.1 == hash) = true := by
        simpa [List.any_cons, hq] using hs
      have hq3 : (q.1 == hash) = false := by
        simpa using hq
      rw [List.map_cons, if_neg hq]
      simp only [List.find?_cons, hq3]
      exact ih hs2

theorem find?_append_of_none {α : Type} (f : α → Bool) (l1 l2 : List α)
    (h : l1.find? f = none) : (l1 ++ l2).find? f = l2.find? f := by
  induction l1 with
  | nil => simp
  | cons a l ih =>
    by_cases ha : f a = true
    · simp [List.find?_cons, ha] at h
    · simp only [List.find?_cons, ha] at h ⊢
      simp only [List.cons_append, List.find?_cons, ha]
      exact ih h

theorem lookupToken_upsert_self (s : Store) (hash : String) (rec : TokenRecord) :
    lookupToken (upsertToken s hash rec) hash = some rec := by
  unfold lookupToken upsertToken
  by_cases hc : s.any (fun q => q.1 == hash) = true
  · rw [if_pos hc, find?_map_replace s hash rec hc]
  · rw [if_neg hc]
    have hnone : s.find? (fun p => p.1 == hash) = none := by
      rw [List.find?_eq_none]
      intro p hp
      have := List.any_eq_true.not.mp hc
      push_neg at this
      exact by simpa using this p hp
    rw [find?_append_of_none _ s _ hnone]
    simp [List.find?_cons]

theorem lookupToken_sweep_none (t : Nat) (s : Store) (hash : String)
    (h : lookupToken s hash = none) :
    lookupToken (deleteExpiredMagicTokens t s) hash = none := by
  unfold deleteExpiredMagicTokens
  exact lookupToken_filter_none s hash _ h

theorem lookupToken_deleteToken_none (s : Store) (hash h2 : String)
    (h : lookupToken s hash = none) :
    lookupToken (deleteToken s h2) hash = none := by
  unfold deleteToken
  exact lookupToken_filter_none s hash _ h

theorem lookupToken_upsert_none (s : Store) (hash h2 : String) (rec : TokenRecord)
    (hne : h2 ≠ hash) (h : lookupToken s hash = none) :
    lookupToken (upsertToken s h2 rec) hash = none := by
  rw [lookupToken_eq_none_iff] at h ⊢
  intro p hp
  rcases mem_upsert s h2 rec p hp with hin | heq
  · exact h p hin
  · rw [heq]
    exact hne

theorem storeMentions_eq_false_iff (s : Store) (x : String) :
    storeMentions s x = false ↔ ∀ p ∈ s, p.1 ≠ x ∧ p.2.email ≠ x := by
  unfold storeMentions
  rw [← Bool.not_eq_true, List.any_eq_true]
  constructor
  · intro h p hp
    constructor
    · intro hx
      exact h ⟨p, hp, by simp [hx]⟩
    · intro hx
      exact h ⟨p, hp, by simp [hx]⟩
  · rintro h ⟨p, hp, hc⟩
    rcases h p hp with ⟨h1, h2⟩
    rcases Bool.or_eq_true_iff.mp hc with hcc | hcc
    · exact h1 (by simpa using hcc)
    · exact h2 (by simpa using hcc)

/-! ### Endpoint characterization lemmas -/

theorem verifyMagic_spec (cfg : AuthConfig) (rawToken : String)
    (tSweep tNow : Nat) (s : Store) (hraw : rawToken ≠ "") :
    (lookupToken (deleteExpiredMagicTokens tSweep s) (cfg.hashToken rawToken) = none
      ∧ verifyMagic cfg rawToken tSweep tNow s
          = ⟨.redirect (cfg.frontendUrl ++ "/login?error=expired_or_invalid"),
             deleteExpiredMagicTokens tSweep s⟩)
    ∨ (∃ rec : TokenRecord,
        lookupToken (deleteExpiredMagicTokens tSweep s) (cfg.hashToken rawToken) = some rec
        ∧ rec.expiresAt ≤ tNow
        ∧ verifyMagic cfg rawToken tSweep tNow s
            = ⟨.redirect (cfg.frontendUrl ++ "/login?error=expired_or_invalid"),
               deleteToken (deleteExpiredMagicTokens tSweep s) (cfg.hashToken rawToken)⟩)
    ∨ (∃ rec : TokenRecord,
        lookupToken (deleteExpiredMagicTokens tSweep s) (cfg.hashToken rawToken) = some rec
        ∧ tNow < rec.expiresAt
        ∧ verifyMagic cfg rawToken tSweep tNow s
            = ⟨.cookieRedirect (createSessionToken cfg rec.email tNow)
                 (cfg.frontendUrl ++ "/dashboard"),
               deleteExpiredMagicTokens tSweep s⟩) := by
  rcases hl : lookupToken (deleteExpiredMagicTokens tSweep s) (cfg.hashToken rawToken)
    with _ | rec
  · left
    refine ⟨rfl, ?_⟩
    simp [verifyMagic, if_neg hraw, hl]
  · by_cases hexp : rec.expiresAt ≤ tNow
    · right
      left
      refine ⟨rec, rfl, hexp, ?_⟩
      simp [verifyMagic, if_neg hraw, hl, if_pos hexp]
    · right
      right
      refine ⟨rec, rfl, by omega, ?_⟩
      simp [verifyMagic, if_neg hraw, hl, if_neg hexp]

theorem verify_no_success_of_absent (cfg : AuthConfig) (r : String) (t1 t2 : Nat)
    (s2 : Store) (habs : lookupToken s2 (cfg.hashToken r) = none) :
    ∀ c u, (verifyMagic cfg r t1 t2 s2).response ≠ HttpResponse.cookieRedirect c u := by
  intro c u hc
  by_cases hraw : r = ""
  · rw [hraw] at hc
    simp [verifyMagic] at hc
  · rcases verifyMagic_spec cfg r t1 t2 s2 hraw with ⟨_, he⟩ | ⟨rec, _, _, he⟩ | ⟨rec, hl, _, he⟩
    · rw [he] at hc
      exact HttpResponse.noConfusion hc
    · rw [he] at hc
      exact HttpResponse.noConfusion hc
    · rw [lookupToken_sweep_none t1 s2 (cfg.hashToken r) habs] at hl
      exact Option.noConfusion hl

theorem requestMagicLink_invalid (cfg : AuthConfig) (e r : String) (se : Option String)
    (n : Nat) (s : Store) (hv : isPoolEngEmail (normalizeEmail e) = false) :
    requestMagicLink cfg e r se n s
      = ⟨.json 400 "Only @pooleng.com emails are allowed", s, []⟩ := by
  simp [requestMagicLink, hv]

theorem requestMagicLink_sent (cfg : AuthConfig) (e r : String) (n : Nat) (s : Store)
    (hv : isPoolEngEmail (normalizeEmail e) = true) :
    requestMagicLink cfg e r none n s
      = ⟨.json 200 "If the email is valid, a magic login link has been sent.",
         upsertToken (deleteExpiredMagicTokens n s) (cfg.hashToken r)
           ⟨normalizeEmail e, n + cfg.magicLinkMinutes * 60 * 1000⟩,
         [⟨normalizeEmail e, cfg.magicLinkBaseUrl ++ "/auth/verify-magic?token="
             ++ cfg.encodeURIComponent r⟩]⟩ := by
  simp [requestMagicLink, hv]

theorem requestMagicLink_failed (cfg : AuthConfig) (e r msg : String) (n : Nat) (s : Store)
    (hv : isPoolEngEmail (normalizeEmail e) = true) :
    requestMagicLink cfg e r (some msg) n s
      = ⟨.json 500 (if cfg.prodEnv then "Failed to send magic link email"
                    else "Failed to send magic link email: " ++ msg),
         deleteToken (upsertToken (deleteExpiredMagicTokens n s) (cfg.hashToken r)
           ⟨normalizeEmail e, n + cfg.magicLinkMinutes * 60 * 1000⟩) (cfg.hashToken r),
         [⟨normalizeEmail e, cfg.magicLinkBaseUrl ++ "/auth/verify-magic?token="
             ++ cfg.encodeURIComponent r⟩]⟩ := by
  simp [requestMagicLink, hv]

/-! ### Claim theorems -/

/-- Claim C7: one invocation of the sweep at time `now` removes exactly
the records with `expiresAt <= now`: a row is in the swept store iff it
was present before and is still unexpired, so every expired record is
gone and no unexpired record is removed. -/
theorem sweep_deletes_exactly_expired (now : Nat) (s : Store) :
    ∀ p : String × TokenRecord,
      p ∈ deleteExpiredMagicTokens now s ↔ (p ∈ s ∧ now < p.2.expiresAt) :=
  fun p => mem_deleteExpired now s p

/-- Claim C8: the issuer rejects with the 400 InvalidIdentity outcome iff
the normalized input fails the allowed-pattern test, and on that failure
the store is untouched and no mail dispatch is attempted. -/
theorem invalid_identity_rejection_iff (cfg : AuthConfig) (e r : String)
    (se : Option String) (n : Nat) (s : Store) :
    ((requestMagicLink cfg e r se n s).response
        = .json 400 "Only @pooleng.com emails are allowed"
      ↔ isPoolEngEmail (normalizeEmail e) = false)
    ∧ (isPoolEngEmail (normalizeEmail e) = false →
        (requestMagicLink cfg e r se n s).store = s
        ∧ (requestMagicLink cfg e r se n s).mailAttempts = []) := by
  by_cases hv : isPoolEngEmail (normalizeEmail e) = true
  · constructor
    · constructor
      · intro hr
        exfalso
        cases se with
        | none =>
          rw [requestMagicLink_sent cfg e r n s hv] at hr
          simp at hr
        | some msg =>
          rw [requestMagicLink_failed cfg e r msg n s hv] at hr
          simp at hr
      · intro hf
        exact absurd (hv.symm.trans hf) (by decide)
    · intro hf
      exact absurd (hv.symm.trans hf) (by decide)
  · have hv2 : isPoolEngEmail (normalizeEmail e) = false := by
      simpa using hv
    rw [requestMagicLink_invalid cfg e r se n s hv2]
    constructor
    · simp [hv2]
    · intro _
      exact ⟨rfl, rfl⟩

/-- Witness for C8 at a concrete rejected identity. -/
theorem invalid_identity_rejection_iff_witness :
    (requestMagicLink sampleCfg "bob@gmail.com" "tok" none 0 []).response
      = .json 400 "Only @pooleng.com emails are allowed"
    ∧ (requestMagicLink sampleCfg "bob@gmail.com" "tok" none 0 []).store = []
    ∧ (requestMagicLink sampleCfg "bob@gmail.com" "tok" none 0 []).mailAttempts = [] := by
  have h := invalid_identity_rejection_iff sampleCfg "bob@gmail.com" "tok" none 0 []
  exact ⟨h.1.mpr (by decide), (h.2 (by decide)).1, (h.2 (by decide)).2⟩

/-- Claim C9: every successful link-issue request returns the same
constant acknowledgement, independent of the accepted identity and of the
random secret, so the success response leaks neither the identity, the
secret, nor the hash. -/
theorem issue_success_ack_constant (cfg : AuthConfig) (e1 r1 e2 r2 : String)
    (n1 n2 : Nat) (s1 s2 : Store)
    (h1 : isPoolEngEmail (normalizeEmail e1) = true)
    (h2 : isPoolEngEmail (normalizeEmail e2) = true) :
    (requestMagicLink cfg e1 r1 none n1 s1).response
      = (requestMagicLink cfg e2 r2 none n2 s2).response
    ∧ (requestMagicLink cfg e1 r1 none n1 s1).response
      = .json 200 "If the email is valid, a magic login link has been sent." := by
  rw [requestMagicLink_sent cfg e1 r1 n1 s1 h1, requestMagicLink_sent cfg e2 r2 n2 s2 h2]
  exact ⟨rfl, rfl⟩

/-- Witness for C9 at two different accepted identities. -/
theorem issue_success_ack_constant_witness :
    (requestMagicLink sampleCfg "alice@pooleng.com" "tok1" none 0 []).response
      = (requestMagicLink sampleCfg "bob@pooleng.com" "tok2" none 7 sampleStore).response
    ∧ (requestMagicLink sampleCfg "alice@pooleng.com" "tok1" none 0 []).response
      = .json 200 "If the email is valid, a magic login link has been sent." :=
  issue_success_ack_constant sampleCfg "alice@pooleng.com" "tok1" "bob@pooleng.com" "tok2"
    0 7 [] sampleStore (by decide) (by decide)

/-- Claim C4: presenting a secret all of whose stored records under its
hash are expired at the comparison time (in particular when the sweeper
already removed the record) yields the uniform invalid-or-expired
redirect, with no session cookie issued. -/
theorem expired_token_verification_fails (cfg : AuthConfig) (rawToken : String)
    (tSweep tNow : Nat) (s : Store) (hraw : rawToken ≠ "")
    (hexp : ∀ p ∈ s, p.1 = cfg.hashToken rawToken → p.2.expiresAt ≤ tNow) :
    (verifyMagic cfg rawToken tSweep tNow s).response
      = .redirect (cfg.frontendUrl ++ "/login?error=expired_or_invalid") := by
  rcases verifyMagic_spec cfg rawToken tSweep tNow s hraw with
    ⟨_, he⟩ | ⟨rec, _, _, he⟩ | ⟨rec, hl, hlt, he⟩
  · rw [he]
  · rw [he]
  · exfalso
    have hmem := lookupToken_some_mem _ _ _ hl
    have hmem2 := (mem_deleteExpired tSweep s _).mp hmem
    have h3 : rec.expiresAt ≤ tNow :=
      hexp (cfg.hashToken rawToken, rec) hmem2.1 rfl
    omega

/-- Witness for C4: a token that expired exactly at the comparison
instant is rejected. -/
theorem expired_token_verification_fails_witness :
    (verifyMagic sampleCfg "secret-raw" 0 100 sampleStore).response
      = .redirect (sampleCfg.frontendUrl ++ "/login?error=expired_or_invalid") :=
  expired_token_verification_fails sampleCfg "secret-raw" 0 100 sampleStore
    (by decide) (by decide)

/-- Claim C5: any two verification runs with presented tokens that both
fail are observationally identical: each produces the single generic
invalid-or-expired redirect, whatever the failure cause. -/
theorem verification_failure_uniform (cfg : AuthConfig) (r1 r2 : String)
    (a1 b1 a2 b2 : Nat) (s1 s2 : Store) (h1 : r1 ≠ "") (h2 : r2 ≠ "")
    (f1 : ∀ c u, (verifyMagic cfg r1 a1 b1 s1).response
        ≠ HttpResponse.cookieRedirect c u)
    (f2 : ∀ c u, (verifyMagic cfg r2 a2 b2 s2).response
        ≠ HttpResponse.cookieRedirect c u) :
    (verifyMagic cfg r1 a1 b1 s1).response = (verifyMagic cfg r2 a2 b2 s2).response
    ∧ (verifyMagic cfg r1 a1 b1 s1).response
        = .redirect (cfg.frontendUrl ++ "/login?error=expired_or_invalid") := by
  have e1 : (verifyMagic cfg r1 a1 b1 s1).response
      = .redirect (cfg.frontendUrl ++ "/login?error=expired_or_invalid") := by
    rcases verifyMagic_spec cfg r1 a1 b1 s1 h1 with
      ⟨_, he⟩ | ⟨rec, _, _, he⟩ | ⟨rec, _, _, he⟩
    · rw [he]
    · rw [he]
    · have hc : (verifyMagic cfg r1 a1 b1 s1).response
          = HttpResponse.cookieRedirect (createSessionToken cfg rec.email b1)
              (cfg.frontendUrl ++ "/dashboard") := by rw [he]
      exact absurd hc (f1 _ _)
  have e2 : (verifyMagic cfg r2 a2 b2 s2).response
      = .redirect (cfg.frontendUrl ++ "/login?error=expired_or_invalid") := by
    rcases verifyMagic_spec cfg r2 a2 b2 s2 h2 with
      ⟨_, he⟩ | ⟨rec, _, _, he⟩ | ⟨rec, _, _, he⟩
    · rw [he]
    · rw [he]
    · have hc : (verifyMagic cfg r2 a2 b2 s2).response
          = HttpResponse.cookieRedirect (createSessionToken cfg rec.email b2)
              (cfg.frontendUrl ++ "/dashboard") := by rw [he]
      exact absurd hc (f2 _ _)
  exact ⟨e1.trans e2.symm, e1⟩

/-- Witness for C5: a never-issued secret and an expired-then-swept
secret produce the same redirect. -/
theorem verification_failure_uniform_witness :
    (verifyMagic sampleCfg "nonexistent" 0 0 []).response
      = (verifyMagic sampleCfg "secret-raw" 200 200 sampleStore).response
    ∧ (verifyMagic sampleCfg "nonexistent" 0 0 []).response
      = .redirect (sampleCfg.frontendUrl ++ "/login?error=expired_or_invalid") :=
  verification_failure_uniform sampleCfg "nonexistent" "secret-raw"
    0 0 200 200 [] sampleStore (by decide) (by decide)
    (fun _ _ h => HttpResponse.noConfusion h)
    (fun _ _ h => HttpResponse.noConfusion h)

/-- Claim C10: a failing verification run with a presented token leaves
no record at all for the presented hash (the expired branch deletes it,
the not-found branch never had it), and since every run sweeps first,
every surviving record is unexpired at the sweep clock. -/
theorem failed_verification_leaves_no_token (cfg : AuthConfig) (rawToken : String)
    (tSweep tNow : Nat) (s : Store) (hraw : rawToken ≠ "")
    (hfail : ∀ c u, (verifyMagic cfg rawToken tSweep tNow s).response
        ≠ HttpResponse.cookieRedirect c u) :
    lookupToken (verifyMagic cfg rawToken tSweep tNow s).store
        (cfg.hashToken rawToken) = none
    ∧ ∀ p ∈ (verifyMagic cfg rawToken tSweep tNow s).store,
        tSweep < p.2.expiresAt := by
  rcases verifyMagic_spec cfg rawToken tSweep tNow s hraw with
    ⟨hl, he⟩ | ⟨rec, hl, hle, he⟩ | ⟨rec, hl, hlt, he⟩
  · rw [he]
    exact ⟨hl, fun p hp => ((mem_deleteExpired tSweep s p).mp hp).2⟩
  · rw [he]
    refine ⟨lookupToken_deleteToken_self _ _, ?_⟩
    intro p hp
    have hp2 : p ∈ deleteExpiredMagicTokens tSweep s := by
      unfold deleteToken at hp
      exact List.mem_of_mem_filter hp
    exact ((mem_deleteExpired tSweep s p).mp hp2).2
  · exfalso
    have hc : (verifyMagic cfg rawToken tSweep tNow s).response
        = HttpResponse.cookieRedirect (createSessionToken cfg rec.email tNow)
            (cfg.frontendUrl ++ "/dashboard") := by rw [he]
    exact hfail _ _ hc

/-- Witness for C10: after a failed run on a token expired at the
comparison clock but not at the sweep clock, the record is gone. -/
theorem failed_verification_leaves_no_token_witness :
    lookupToken (verifyMagic sampleCfg "secret-raw" 0 100 sampleStore).store
      (sampleCfg.hashToken "secret-raw") = none :=
  (failed_verification_leaves_no_token sampleCfg "secret-raw" 0 100 sampleStore
    (by decide) (fun _ _ h => HttpResponse.noConfusion h)).1

/-- Session payload used to instantiate theorems at concrete inputs. -/
def samplePayload : SessionPayload := ⟨"alice@pooleng.com", 0, 10⟩

/-- Claim C1 exhibit: the verifier issues the session cookie on success
without destroying the token row (server.js:386-394 contains no DELETE on
the success path), so presenting the same secret a second time succeeds
again while the record is still stored, contrary to the single-use
guarantee. -/
theorem magic_link_replay_not_prevented :
    (verifyMagic sampleCfg "secret-raw" 50 50 sampleStore).response
      = .cookieRedirect (createSessionToken sampleCfg "alice@pooleng.com" 50)
          (sampleCfg.frontendUrl ++ "/dashboard")
    ∧ lookupToken (verifyMagic sampleCfg "secret-raw" 50 50 sampleStore).store
        (sampleCfg.hashToken "secret-raw")
      = some ⟨"alice@pooleng.com", 100⟩
    ∧ (verifyMagic sampleCfg "secret-raw" 50 50
         (verifyMagic sampleCfg "secret-raw" 50 50 sampleStore).store).response
      = .cookieRedirect (createSessionToken sampleCfg "alice@pooleng.com" 50)
          (sampleCfg.frontendUrl ++ "/dashboard") :=
  ⟨by decide, by decide, by decide⟩

/-- Claim C2: a presented session credential is accepted, yielding its
identity, iff its signature is the HMAC over its payload under the
process key and the validation time is before the embedded expiry; and
tampering with a valid credential, by changing the signature or by
changing the payload to one with a different HMAC, yields the uniform 401
outcome. -/
theorem session_credential_validation (cfg : AuthConfig) (now : Nat) (t : Jwt) :
    (requireAuth cfg now (some t) = .authenticated t.payload
        ↔ t.sig = cfg.mac cfg.jwtSecret t.payload ∧ now < t.payload.exp)
    ∧ (∀ s2 : String, t.sig = cfg.mac cfg.jwtSecret t.payload → s2 ≠ t.sig →
        requireAuth cfg now (some ⟨t.payload, s2⟩)
          = .unauthenticated 401 "Invalid or expired session")
    ∧ (∀ p2 : SessionPayload, t.sig = cfg.mac cfg.jwtSecret t.payload →
        cfg.mac cfg.jwtSecret p2 ≠ cfg.mac cfg.jwtSecret t.payload →
        requireAuth cfg now (some ⟨p2, t.sig⟩)
          = .unauthenticated 401 "Invalid or expired session") := by
  refine ⟨?_, ?_, ?_⟩
  · by_cases h : t.sig = cfg.mac cfg.jwtSecret t.payload ∧ now < t.payload.exp
    · simp [requireAuth, jwtVerify, h]
    · simp only [requireAuth, jwtVerify]
      rw [if_neg h]
      constructor
      · intro hc
        exact AuthResult.noConfusion hc
      · intro hc
        exact absurd hc h
  · intro s2 hvalid hne
    have hcond : ¬(s2 = cfg.mac cfg.jwtSecret t.payload ∧ now < t.payload.exp) := by
      rintro ⟨hs, _⟩
      exact hne (hs.trans hvalid.symm)
    simp only [requireAuth, jwtVerify]
    rw [if_neg hcond]
  · intro p2 hvalid hmac
    have hcond : ¬(t.sig = cfg.mac cfg.jwtSecret p2 ∧ now < p2.exp) := by
      rintro ⟨hs, _⟩
      exact hmac (hs.symm.trans hvalid)
    simp only [requireAuth, jwtVerify]
    rw [if_neg hcond]

/-- Witness for C2: under the concrete configuration a valid credential
is accepted, and a forged signature or a swapped payload is rejected. -/
theorem session_credential_validation_witness :
    requireAuth sampleCfg 5 (some (jwtSign sampleCfg samplePayload))
      = .authenticated samplePayload
    ∧ requireAuth sampleCfg 5 (some ⟨samplePayload, "forged-signature"⟩)
      = .unauthenticated 401 "Invalid or expired session"
    ∧ requireAuth sampleCfg 5 (some ⟨⟨"mallory@pooleng.com", 0, 10⟩,
        (jwtSign sampleCfg samplePayload).sig⟩)
      = .unauthenticated 401 "Invalid or expired session" := by
  have h := session_credential_validation sampleCfg 5 (jwtSign sampleCfg samplePayload)
  exact ⟨h.1.mpr ⟨rfl, by decide⟩,
         h.2.1 "forged-signature" rfl (by decide),
         h.2.2 ⟨"mallory@pooleng.com", 0, 10⟩ rfl (by decide)⟩

/-- Claim C3: when the mail dispatch fails, the issuer deletes the token
row before returning the 500 response, the deleted hash is absent from
the resulting store, verification can never succeed against any store in
which the hash is absent, and the hash stays absent across further issue
requests for other secrets and across verification requests. -/
theorem delivery_failure_rollback (cfg : AuthConfig) (emailRaw rawToken msg : String)
    (now : Nat) (s : Store)
    (hok : isPoolEngEmail (normalizeEmail emailRaw) = true) :
    (requestMagicLink cfg emailRaw rawToken (some msg) now s).response
      = .json 500 (if cfg.prodEnv then "Failed to send magic link email"
                   else "Failed to send magic link email: " ++ msg)
    ∧ lookupToken (requestMagicLink cfg emailRaw rawToken (some msg) now s).store
        (cfg.hashToken rawToken) = none
    ∧ (∀ s2 : Store, ∀ t1 t2 : Nat,
        lookupToken s2 (cfg.hashToken rawToken) = none →
        ∀ c u, (verifyMagic cfg rawToken t1 t2 s2).response
            ≠ HttpResponse.cookieRedirect c u)
    ∧ (∀ s2 : Store, ∀ e2 r2 : String, ∀ se2 : Option String, ∀ n2 : Nat,
        lookupToken s2 (cfg.hashToken rawToken) = none →
        cfg.hashToken r2 ≠ cfg.hashToken rawToken →
        lookupToken (requestMagicLink cfg e2 r2 se2 n2 s2).store
          (cfg.hashToken rawToken) = none)
    ∧ (∀ s2 : Store, ∀ r2 : String, ∀ t1 t2 : Nat,
        lookupToken s2 (cfg.hashToken rawToken) = none →
        lookupToken (verifyMagic cfg r2 t1 t2 s2).store
          (cfg.hashToken rawToken) = none) := by
  refine ⟨?_, ?_, ?_, ?_, ?_⟩
  · rw [requestMagicLink_failed cfg emailRaw rawToken msg now s hok]
  · rw [requestMagicLink_failed cfg emailRaw rawToken msg now s hok]
    exact lookupToken_deleteToken_self _ _
  · intro s2 t1 t2 habs
    exact verify_no_success_of_absent cfg rawToken t1 t2 s2 habs
  · intro s2 e2 r2 se2 n2 habs hne
    by_cases hv : isPoolEngEmail (normalizeEmail e2) = true
    · cases se2 with
      | none =>
        rw [requestMagicLink_sent cfg e2 r2 n2 s2 hv]
        exact lookupToken_upsert_none _ _ _ _ hne (lookupToken_sweep_none _ _ _ habs)
      | some m2 =>
        rw [requestMagicLink_failed cfg e2 r2 m2 n2 s2 hv]
        exact lookupToken_deleteToken_none _ _ _
          (lookupToken_upsert_none _ _ _ _ hne (lookupToken_sweep_none _ _ _ habs))
    · have hv2 : isPoolEngEmail (normalizeEmail e2) = false := by
        simpa using hv
      rw [requestMagicLink_invalid cfg e2 r2 se2 n2 s2 hv2]
      exact habs
  · intro s2 r2 t1 t2 habs
    by_cases hraw2 : r2 = ""
    · rw [hraw2]
      simpa [verifyMagic] using habs
    · rcases verifyMagic_spec cfg r2 t1 t2 s2 hraw2 with
        ⟨_, he⟩ | ⟨rec, _, _, he⟩ | ⟨rec, _, _, he⟩
      · rw [he]
        exact lookupToken_sweep_none _ _ _ habs
      · rw [he]
        exact lookupToken_deleteToken_none _ _ _ (lookupToken_sweep_none _ _ _ habs)
      · rw [he]
        exact lookupToken_sweep_none _ _ _ habs

/-- Witness for C3: after a failed dispatch the record is gone and the
never-delivered secret cannot be redeemed from the resulting store. -/
theorem delivery_failure_rollback_witness :
    (requestMagicLink sampleCfg "alice@pooleng.com" "tok" (some "boom") 0 []).response
      = .json 500 "Failed to send magic link email: boom"
    ∧ lookupToken
        (requestMagicLink sampleCfg "alice@pooleng.com" "tok" (some "boom") 0 []).store
        (sampleCfg.hashToken "tok") = none
    ∧ (verifyMagic sampleCfg "tok" 1 1
         (requestMagicLink sampleCfg "alice@pooleng.com" "tok" (some "boom") 0 []).store).response
        ≠ HttpResponse.cookieRedirect (jwtSign sampleCfg samplePayload)
            (sampleCfg.frontendUrl ++ "/dashboard") := by
  have h := delivery_failure_rollback sampleCfg "alice@pooleng.com" "tok" "boom" 0 []
    (by decide)
  exact ⟨h.1, h.2.1, h.2.2.1 _ 1 1 h.2.1 _ _⟩

/-- Claim C6: an issued token is persisted keyed by the digest of the
secret together with the normalized lower-cased identity and the expiry
`now + TTL`; every row of the resulting store is an old row or exactly
that record, and (when the digest differs from the raw secret, as a
one-way digest does) the raw secret appears in no persisted record. -/
theorem issued_token_persists_only_hash (cfg : AuthConfig) (emailRaw rawToken : String)
    (now : Nat) (s : Store)
    (hok : isPoolEngEmail (normalizeEmail emailRaw) = true) :
    lookupToken (requestMagicLink cfg emailRaw rawToken none now s).store
        (cfg.hashToken rawToken)
      = some ⟨normalizeEmail emailRaw, now + cfg.magicLinkMinutes * 60 * 1000⟩
    ∧ (∀ p ∈ (requestMagicLink cfg emailRaw rawToken none now s).store,
        p ∈ s ∨ p = (cfg.hashToken rawToken,
          ⟨normalizeEmail emailRaw, now + cfg.magicLinkMinutes * 60 * 1000⟩))
    ∧ (cfg.hashToken rawToken ≠ rawToken → normalizeEmail emailRaw ≠ rawToken →
        storeMentions s rawToken = false →
        storeMentions (requestMagicLink cfg emailRaw rawToken none now s).store
          rawToken = false) := by
  rw [requestMagicLink_sent cfg emailRaw rawToken now s hok]
  refine ⟨lookupToken_upsert_self _ _ _, ?_, ?_⟩
  · intro p hp
    rcases mem_upsert _ _ _ p hp with hin | heq
    · exact Or.inl ((mem_deleteExpired now s p).mp hin).1
    · exact Or.inr heq
  · intro hd hm h0
    rw [storeMentions_eq_false_iff] at h0 ⊢
    intro p hp
    rcases mem_upsert _ _ _ p hp with hin | heq
    · exact h0 p ((mem_deleteExpired now s p).mp hin).1
    · rw [heq]
      exact ⟨hd, hm⟩

/-- Witness for C6 at a concrete issue request. -/
theorem issued_token_persists_only_hash_witness :
    lookupToken (requestMagicLink sampleCfg "alice@pooleng.com" "tok" none 0 []).store
        (sampleCfg.hashToken "tok")
      = some ⟨"alice@pooleng.com", 600000⟩
    ∧ storeMentions (requestMagicLink sampleCfg "alice@pooleng.com" "tok" none 0 []).store
        "tok" = false := by
  have h := issued_token_persists_only_hash sampleCfg "alice@pooleng.com" "tok" 0 []
    (by decide)
  exact ⟨h.1, h.2.2 (by decide) (by decide) (by decide)⟩

end ExpTracker
